import Mathlib

/-!
Verification development for the opencode-matrix-plugin repository.

The subject is the model-preference subsystem: `ModelManager` in
`src/matrix-client.js` (format validation, catalog check, scope dispatch in
`switchModel`, precedence resolution in `getCurrentModel`, keyword-scored
intent detection in `detectSwitchIntent`), the simpler keyword detector
`detectModelSwitchIntent` in the message-handler file, and
`PreferenceStore.saveUserPreference` from `preference-store.js`.

JavaScript strings are modelled as `String` / `List Char`; `Map` objects as
association lists keyed by strings; SQLite tables as association lists of row
structures; thrown errors as `Except String`; `undefined`-able parameters as
`Option String` with JS truthiness (both `undefined` and the empty string are
falsy).
-/

deriving instance DecidableEq for Except

/-- Character lists: the working representation of JS strings. -/
abbrev Chars := List Char

/-- JS `String.prototype.startsWith`-style check at the head of a list. -/
def jsLeads : Chars → Chars → Bool
  | [], _ => true
  | _ :: _, [] => false
  | a :: pa, b :: s => a == b && jsLeads pa s

/-- JS `String.prototype.includes`: `pat` occurs as a contiguous substring of `hay`. -/
def jsIncludesC (hay pat : Chars) : Bool :=
  match hay with
  | [] => pat.isEmpty
  | _ :: rest => jsLeads pat hay || jsIncludesC rest pat

/-- `String.prototype.includes` on `String`s. -/
def jsIncludesS (s pat : String) : Bool := jsIncludesC s.data pat.data

/-- JS `toLowerCase()` (ASCII letters; CJK characters are unaffected). -/
def lcData (s : String) : Chars := s.data.map Char.toLower

/-- JS `String.prototype.split(sep)` for a one-character separator. -/
def splitChar (sep : Char) : Chars → List Chars
  | [] => [[]]
  | c :: rest =>
    match splitChar sep rest with
    | [] => [[]]
    | g :: gs => if c == sep then [] :: g :: gs else (c :: g) :: gs

/-- JS `[...new Set(l)]`: first occurrences, in order. -/
def jsSetDedupAux (seen : List Chars) : List Chars → List Chars
  | [] => []
  | k :: rest => if k ∈ seen then jsSetDedupAux seen rest else k :: jsSetDedupAux (k :: seen) rest

def jsSetDedup (l : List Chars) : List Chars := jsSetDedupAux [] l

/-- JS truthiness of a possibly-`undefined` string (empty string is falsy). -/
def jsTruthy : Option String → Bool
  | none => false
  | some s => !(s == "")

/-- JS `x || d` for a possibly-`undefined` string. -/
def jsOr (o : Option String) (d : String) : String :=
  match o with
  | none => d
  | some s => if s == "" then d else s

/-- JS `x || null` for a possibly-`undefined` string. -/
def jsOrNull (o : Option String) : Option String :=
  match o with
  | none => none
  | some s => if s == "" then none else some s

/-- First-occurrence association-list lookup (JS `Map.get` combined with `Map.has`). -/
def lookupAssoc {β : Type} (k : String) : List (String × β) → Option β
  | [] => none
  | (k2, v) :: rest => if k2 == k then some v else lookupAssoc k rest

/-- JS `Map.set`: update in place if the key exists, else append. -/
def mapSet {β : Type} (k : String) (v : β) : List (String × β) → List (String × β)
  | [] => [(k, v)]
  | (k2, v2) :: rest => if k2 == k then (k, v) :: rest else (k2, v2) :: mapSet k v rest

/-- Apply `f` to the value stored at key `k` (SQL `UPDATE ... WHERE key = ?`
touches every row whose key matches). -/
def updateAssoc {β : Type} (k : String) (f : β → β) : List (String × β) → List (String × β)
  | [] => []
  | (k2, v) :: rest => (if k2 == k then (k2, f v) else (k2, v)) :: updateAssoc k f rest

/-- A catalog entry, as built by `loadAvailableModels` / `getDefaultModels`. -/
structure ModelDesc where
  id : String
  name : String
  provider : String
  contextWindow : Nat
  maxTokens : Nat
  reasoning : Bool
  input : List String
  output : List String
deriving DecidableEq

/-- `ModelManager.getDefaultModels()` from `src/matrix-client.js`. -/
def defaultModels : List ModelDesc :=
  [ { id := "cc-oaicomp/Kimi-K2.5", name := "Kimi K2.5", provider := "cc-oaicomp",
      contextWindow := 256000, maxTokens := 32000, reasoning := false,
      input := ["text", "image"], output := ["text"] },
    { id := "cc-oaicomp/DeepSeek-V3.2", name := "DeepSeek V3.2", provider := "cc-oaicomp",
      contextWindow := 128000, maxTokens := 8000, reasoning := false,
      input := ["text"], output := ["text"] },
    { id := "cc-openai/gpt-5.3-codex", name := "GPT 5.3 Codex", provider := "cc-openai",
      contextWindow := 272000, maxTokens := 128000, reasoning := false,
      input := ["text", "image"], output := ["text"] },
    { id := "cc-claude/claude-3.5-sonnet", name := "Claude 3.5 Sonnet", provider := "cc-claude",
      contextWindow := 200000, maxTokens := 128000, reasoning := false,
      input := ["text", "image"], output := ["text"] },
    { id := "cc-gemini/gemini-3-flash-preview", name := "Gemini 3 Flash Preview",
      provider := "cc-gemini", contextWindow := 1048576, maxTokens := 65536, reasoning := false,
      input := ["text", "image", "pdf"], output := ["text"] } ]

/-- `ModelManager.getModelAliases()`: alias token to full model id. -/
def modelAliases : List (String × String) :=
  [ ("fast", "cc-oaicomp/DeepSeek-V3.2"),
    ("smart", "cc-openai/gpt-5.3-codex"),
    ("code", "cc-openai/gpt-5.3-codex"),
    ("chat", "cc-oaicomp/Kimi-K2.5"),
    ("default", "cc-oaicomp/Kimi-K2.5") ]

/-- Character class of the provider token in `validateModelIdFormat`:
the regex class `[a-zA-Z0-9_-]`. -/
def isProviderChar (c : Char) : Bool := c.isAlpha || c.isDigit || c == '_' || c == '-'

/-- Character class of the model-name token: the regex class `[a-zA-Z0-9._-]`. -/
def isNameChar (c : Char) : Bool := isProviderChar c || c == '.'

/-- Split at the first slash. Since neither regex character class admits a
slash, `^[a-zA-Z0-9_-]+\/[a-zA-Z0-9._-]+$` matches exactly when the text
before the first slash is a nonempty provider token and the text after it is a
nonempty model-name token (a second slash fails the name-class check). -/
def splitAtSlash : Chars → Option (Chars × Chars)
  | [] => none
  | c :: rest =>
    if c == '/' then some ([], rest)
    else
      match splitAtSlash rest with
      | some (a, b) => some (c :: a, b)
      | none => none

/-- `ModelManager.validateModelIdFormat`: test against
`^[a-zA-Z0-9_-]+\/[a-zA-Z0-9._-]+$`. -/
def validateModelIdFormat (modelId : String) : Bool :=
  match splitAtSlash modelId.data with
  | some (a, b) => !a.isEmpty && a.all isProviderChar && !b.isEmpty && b.all isNameChar
  | none => false

/-- Row of the `user_model_preferences` table created by
`ModelManager.initDatabase` (surrogate `id` omitted; `user_id` is the
association key; timestamps as abstract instants). -/
structure UserPrefRow where
  modelId : String
  lastUsed : Nat
  usageCount : Nat
  createdAt : Nat
  updatedAt : Nat
deriving DecidableEq

/-- Row of the `room_model_preferences` table (`room_id` is the key). -/
structure RoomPrefRow where
  modelId : String
  setByUser : String
  setAt : Nat
deriving DecidableEq

/-- Row of the append-only `model_usage_stats` table. -/
structure UsageStatRow where
  modelId : String
  userId : Option String
  roomId : Option String
  tokensUsed : Nat
  responseTimeMs : Nat
  timestamp : Nat
deriving DecidableEq

/-- The mutable state of a `ModelManager` instance: the session default
`currentModel`, the in-memory preference `Map`s, the loaded catalog, and the
SQLite database (its connection flag and its three tables). -/
structure MMState where
  currentModel : String
  userPreferences : List (String × String)
  roomPreferences : List (String × String)
  availableModels : List ModelDesc
  dbConnected : Bool
  dbUserPrefs : List (String × UserPrefRow)
  dbRoomPrefs : List (String × RoomPrefRow)
  dbUsageStats : List UsageStatRow
deriving DecidableEq

/-- `ModelManager.isModelAvailable`. -/
def isModelAvailable (st : MMState) (modelId : String) : Bool :=
  st.availableModels.any (fun m => m.id == modelId)

/-- The guard-and-read used twice by `getCurrentModel`:
`ctxId && prefs.has(ctxId)` followed by `prefs.get(ctxId)`. -/
def prefLookup (o : Option String) (prefs : List (String × String)) : Option String :=
  match o with
  | none => none
  | some k => if k == "" then none else lookupAssoc k prefs

/-- `ModelManager.getCurrentModel({userId, roomId})`: user preference, else
room preference, else the session default. -/
def getCurrentModel (st : MMState) (userId roomId : Option String) : String :=
  match prefLookup userId st.userPreferences with
  | some m => m
  | none =>
    match prefLookup roomId st.roomPreferences with
    | some m => m
    | none => st.currentModel

/-- The `{success, previous, current}` object returned by `switchModel`. -/
structure SwitchResult where
  success : Bool
  previous : Option String
  current : String
deriving DecidableEq

/-- `scope.includes('session') || scope.includes('all')`. -/
def sessionScopeHit (scope : String) : Bool :=
  jsIncludesS scope "session" || jsIncludesS scope "all"

/-- The session-tier block of `switchModel`: record the previous session
default and install the new one when the scope mentions session/all. -/
def applySessionScope (st : MMState) (modelId scope : String) : MMState × SwitchResult :=
  if sessionScopeHit scope then
    ({ st with currentModel := modelId },
     { success := true, previous := some st.currentModel, current := modelId })
  else
    (st, { success := true, previous := none, current := modelId })

/-- The SQL `INSERT OR REPLACE INTO user_model_preferences (user_id, model_id,
updated_at) VALUES (?, ?, datetime('now'))` executed by `switchModel`: on a
`UNIQUE(user_id)` conflict SQLite deletes the old row and inserts a fresh one,
so every column not named in the statement takes its schema default —
`usage_count` becomes `0` and `last_used`/`created_at` become the current
timestamp. -/
def sqlReplaceUserPref (tbl : List (String × UserPrefRow)) (userId modelId : String)
    (now : Nat) : List (String × UserPrefRow) :=
  mapSet userId
    { modelId := modelId, lastUsed := now, usageCount := 0, createdAt := now, updatedAt := now }
    tbl

/-- The SQL `INSERT OR REPLACE INTO room_model_preferences (room_id, model_id,
set_by_user, set_at) VALUES (?, ?, ?, datetime('now'))` from `switchModel`. -/
def sqlReplaceRoomPref (tbl : List (String × RoomPrefRow)) (roomId modelId setBy : String)
    (now : Nat) : List (String × RoomPrefRow) :=
  mapSet roomId { modelId := modelId, setByUser := setBy, setAt := now } tbl

/-- The user-tier block of `switchModel`:
`if (scope.includes('user') && userId)` set the in-memory preference and, when
the database is connected, run the `INSERT OR REPLACE`. -/
def applyUserScope (st : MMState) (modelId : String) (userId : Option String)
    (scope : String) (now : Nat) : MMState :=
  match userId with
  | none => st
  | some u =>
    if jsIncludesS scope "user" && !(u == "") then
      let st1 := { st with userPreferences := mapSet u modelId st.userPreferences }
      if st1.dbConnected then
        { st1 with dbUserPrefs := sqlReplaceUserPref st1.dbUserPrefs u modelId now }
      else st1
    else st

/-- The room-tier block of `switchModel`:
`if (scope.includes('room') && roomId)`, persisting with `userId || 'system'`
as `set_by_user`. -/
def applyRoomScope (st : MMState) (modelId : String) (userId roomId : Option String)
    (scope : String) (now : Nat) : MMState :=
  match roomId with
  | none => st
  | some r =>
    if jsIncludesS scope "room" && !(r == "") then
      let st1 := { st with roomPreferences := mapSet r modelId st.roomPreferences }
      if st1.dbConnected then
        { st1 with dbRoomPrefs := sqlReplaceRoomPref st1.dbRoomPrefs r modelId (jsOr userId "system") now }
      else st1
    else st

/-- `ModelManager.recordModelUsage`: insert a usage-stat row inside a
`try/catch` that logs and swallows any error. `telemetryFails` selects the
catch path (the insert threw, leaving the state untouched); without the
database the method returns early. -/
def recordModelUsage (st : MMState) (modelId : String) (userId roomId : Option String)
    (now : Nat) (telemetryFails : Bool) : MMState :=
  if telemetryFails then st
  else if st.dbConnected then
    { st with dbUsageStats := st.dbUsageStats ++
        [{ modelId := modelId, userId := jsOrNull userId, roomId := jsOrNull roomId,
           tokensUsed := 0, responseTimeMs := 0, timestamp := now }] }
  else st

/-- The message of the `InvalidFormat` error thrown by `switchModel`. -/
def invalidFormatMsg (modelId : String) : String :=
  "无效的模型ID格式: " ++ modelId ++ "。正确格式: provider/model-name"

/-- The message of the `ModelUnavailable` error thrown by `switchModel`. -/
def unavailableMsg (modelId : String) : String :=
  "模型不可用: " ++ modelId ++ "。使用 !opencode models 查看可用模型"

/-- `ModelManager.switchModel(modelId, {userId, roomId, scope})`: format check,
catalog check, scope dispatch (session/all, then user, then room), then the
best-effort usage-stat insert; returns the `{success, previous, current}`
built by the session block. The two early `throw`s are the `.error` cases. -/
def switchModel (st : MMState) (modelId : String) (userId roomId : Option String)
    (scope : String) (now : Nat) (telemetryFails : Bool) :
    Except String (MMState × SwitchResult) :=
  if validateModelIdFormat modelId then
    if isModelAvailable st modelId then
      let p := applySessionScope st modelId scope
      let st2 := applyUserScope p.1 modelId userId scope now
      let st3 := applyRoomScope st2 modelId userId roomId scope now
      let st4 := recordModelUsage st3 modelId userId roomId now telemetryFails
      .ok (st4, p.2)
    else .error (unavailableMsg modelId)
  else .error (invalidFormatMsg modelId)

/-- `PreferenceStore.saveUserPreference(userId, modelId)` from
`preference-store.js`: select the existing row by `user_id`; if present,
`UPDATE ... SET model_id = ?, last_used = ?, updated_at = ?,
usage_count = usage_count + 1`; otherwise `INSERT` a fresh row with
`usage_count = 1` and all timestamps set to now. -/
def saveUserPreference (tbl : List (String × UserPrefRow)) (userId modelId : String)
    (now : Nat) : List (String × UserPrefRow) :=
  match lookupAssoc userId tbl with
  | some _ =>
    updateAssoc userId
      (fun r => { r with modelId := modelId, lastUsed := now, updatedAt := now,
                         usageCount := r.usageCount + 1 })
      tbl
  | none =>
    tbl ++ [(userId,
      { modelId := modelId, lastUsed := now, usageCount := 1, createdAt := now,
        updatedAt := now })]

/-- The switch-trigger word list of `detectModelSwitchIntent`
(message-handler file; Chinese only). -/
def nlSwitchKeywords : List Chars :=
  (["切换", "换成", "使用", "改用", "改为", "换到", "切到", "用", "切换到"] : List String).map
    String.data

/-- The scope keyword table of `detectModelSwitchIntent`, in object-literal
iteration order. -/
def nlScopeKeywords : List (String × List Chars) :=
  [ ("session", (["会话", "临时", "本次", "这次", "当前"] : List String).map String.data),
    ("user", (["用户", "个人", "我的", "自己", "为我"] : List String).map String.data),
    ("room", (["房间", "群聊", "这里", "本房间"] : List String).map String.data),
    ("global", (["全局", "全部", "所有", "系统"] : List String).map String.data) ]

/-- The switch-trigger word list of `ModelManager.detectSwitchIntent`
(Chinese and English). -/
def mgrSwitchKeywords : List Chars :=
  (["切换", "换成", "使用", "改用", "改为", "换到", "切到", "用", "切换到",
    "switch", "use", "change", "set", "select", "choose",
    "保存", "偏好", "设置", "设为", "指定", "选取"] : List String).map String.data

/-- The scope keyword table of `ModelManager.detectSwitchIntent`. -/
def mgrScopeKeywords : List (String × List Chars) :=
  [ ("session",
      (["会话", "临时", "本次", "这次", "当前", "session", "temporary"] : List String).map
        String.data),
    ("user",
      (["用户", "个人", "我的", "自己", "为我", "user", "personal", "my", "me"] : List String).map
        String.data),
    ("room",
      (["房间", "群聊", "这里", "本房间", "room", "chat", "group"] : List String).map
        String.data),
    ("global",
      (["全局", "全部", "所有", "系统", "global", "all", "system"] : List String).map
        String.data) ]

/-- `model.id.split('/')[1]?.toLowerCase() || ''`. -/
def modelNamePart (id : String) : Chars :=
  ((splitChar '/' id.data).getD 1 []).map Char.toLower

/-- The brand-synonym keywords pushed for a model whose lower-cased display
name contains the respective brand substring (shared verbatim by both
detectors). -/
def brandKeywordsFor (displayName : Chars) : List Chars :=
  (if jsIncludesC displayName "deepseek".data then
     (["deepseek", "深度求索"] : List String).map String.data else []) ++
  (if jsIncludesC displayName "kimi".data then
     (["kimi", "月之暗面"] : List String).map String.data else []) ++
  (if jsIncludesC displayName "gpt".data then
     (["gpt", "openai", "chatgpt"] : List String).map String.data else []) ++
  (if jsIncludesC displayName "claude".data then
     (["claude", "anthropic"] : List String).map String.data else []) ++
  (if jsIncludesC displayName "gemini".data then
     (["gemini", "谷歌"] : List String).map String.data else [])

/-- Match of `/(\d+\.\d+)/` anchored at the head of the list: a maximal
nonempty digit run, a dot, a nonempty digit run (greedy, no backtracking can
help because a dot is not a digit). -/
def versionAt (cs : Chars) : Option Chars :=
  let d1 := cs.takeWhile Char.isDigit
  if d1.isEmpty then none
  else
    match cs.drop d1.length with
    | '.' :: rest =>
      let d2 := rest.takeWhile Char.isDigit
      if d2.isEmpty then none else some (d1 ++ '.' :: d2)
    | _ => none

/-- `displayName.match(/(\d+\.\d+)/)`: leftmost match of a version-number
token, or none. -/
def firstVersion : Chars → Option Chars
  | [] => none
  | c :: cs =>
    match versionAt (c :: cs) with
    | some v => some v
    | none => firstVersion cs

/-- The per-model keyword list built by `detectModelSwitchIntent`: short model
name (if any), lower-cased display name, brand synonyms, deduplicated. -/
def nlBuildModelKeywords (models : List ModelDesc) : List (String × List Chars) :=
  models.map (fun model =>
    let modelName := modelNamePart model.id
    let displayName := model.name.data.map Char.toLower
    (model.id,
     jsSetDedup ((if modelName.isEmpty then [] else [modelName]) ++ [displayName] ++
       brandKeywordsFor displayName)))

/-- The per-model keyword list built by `ModelManager.detectSwitchIntent`:
as the handler's, plus an embedded version-number token, deduplicated. -/
def mgrBuildModelKeywords (models : List ModelDesc) : List (String × List Chars) :=
  models.map (fun model =>
    let modelName := modelNamePart model.id
    let displayName := model.name.data.map Char.toLower
    (model.id,
     jsSetDedup ((if modelName.isEmpty then [] else [modelName]) ++ [displayName] ++
       brandKeywordsFor displayName ++
       (match firstVersion displayName with
        | some v => [v]
        | none => []))))

/-- The alias pass shared by both detectors: for every alias whose target id
has a keyword entry, append the lower-cased alias token to that entry. -/
def addAliasKeywords (mk : List (String × List Chars)) : List (String × List Chars) :=
  modelAliases.foldl
    (fun acc p =>
      acc.map (fun q => if q.1 == p.2 then (q.1, q.2 ++ [lcData p.1]) else q))
    mk

/-- The handler detector's first-match loop: the first model (in catalog
iteration order) any of whose keywords occurs in the text wins, and its whole
keyword list is recorded. -/
def nlFindMatch (lower : Chars) : List (String × List Chars) → Option (String × List Chars)
  | [] => none
  | (mid, kws) :: rest =>
    if kws.any (fun kw => jsIncludesC lower kw) then some (mid, kws)
    else nlFindMatch lower rest

/-- The scope-detection loop shared by both detectors: scan the scope table in
order; the first scope other than `session` with a keyword in the text wins
(a `session` keyword match re-assigns the default and so does not stop the
scan); default `session`. -/
def detectScopeLoop (lower : Chars) : List (String × List Chars) → String
  | [] => "session"
  | (sc, words) :: rest =>
    if words.any (fun w => jsIncludesC lower w) then
      if sc == "session" then detectScopeLoop lower rest else sc
    else detectScopeLoop lower rest

/-- The handler detector's permanent-keyword check: 永久 / 保存 / 偏好. -/
def nlPermanent (lower : Chars) : Bool :=
  jsIncludesC lower "永久".data || jsIncludesC lower "保存".data ||
    jsIncludesC lower "偏好".data

/-- The manager detector's permanent-keyword check: additionally
`persistent` / `preference`. -/
def mgrPermanent (lower : Chars) : Bool :=
  nlPermanent lower || jsIncludesC lower "persistent".data ||
    jsIncludesC lower "preference".data

/-- The result of `detectModelSwitchIntent` (message-handler file). -/
structure NLIntent where
  intent : String
  modelId : String
  scope : String
  confidence : String
deriving DecidableEq

/-- `detectModelSwitchIntent(message, modelManager)` from the message-handler
file: trigger check, first-match model lookup, scope loop, permanent
override, and a confidence that re-tests the matched model's keyword list. -/
def detectModelSwitchIntent (models : List ModelDesc) (message : String) : Option NLIntent :=
  let lower := lcData message
  if nlSwitchKeywords.any (fun kw => jsIncludesC lower kw) then
    match nlFindMatch lower (addAliasKeywords (nlBuildModelKeywords models)) with
    | some (mid, kws) =>
      some { intent := "switch_model", modelId := mid,
             scope :=
               if nlPermanent lower then "user" else detectScopeLoop lower nlScopeKeywords,
             confidence :=
               if kws.any (fun kw => jsIncludesC lower kw) then "high" else "medium" }
    | none => none
  else none

/-- The fixed brand-name array of the manager's scoring tier
(`['deepseek','kimi','gpt','openai','claude','gemini','深度求索','月之暗面','谷歌']`;
note that `chatgpt` and `anthropic` are not in it). -/
def mgrBrandList : List Chars :=
  (["deepseek", "kimi", "gpt", "openai", "claude", "gemini",
    "深度求索", "月之暗面", "谷歌"] : List String).map String.data

/-- `keyword.match(/^\d+\.\d+$/)`: the whole keyword is digits, dot, digits. -/
def isVersionToken (kw : Chars) : Bool :=
  match splitChar '.' kw with
  | [a, b] => !a.isEmpty && a.all Char.isDigit && !b.isEmpty && b.all Char.isDigit
  | _ => false

/-- `keyword === modelId.split('/')[1]?.toLowerCase()` (false when the id has
no slash, as a string never equals `undefined`). -/
def isModelNameOf (mid : String) (kw : Chars) : Bool :=
  match (splitChar '/' mid.data).get? 1 with
  | some p => kw == p.map Char.toLower
  | none => false

/-- The specificity points `detectSwitchIntent` adds for one matched keyword:
version-number token 10, keyword containing a slash 8, bare model name 6,
member of the fixed brand array 4, anything else (aliases, display names,
`chatgpt`, `anthropic`) 2. -/
def keywordPoints (mid : String) (kw : Chars) : Nat :=
  if isVersionToken kw then 10
  else if jsIncludesC kw "/".data then 8
  else if isModelNameOf mid kw then 6
  else if mgrBrandList.contains kw then 4
  else 2

/-- One model's score in `detectSwitchIntent`: the sum of the points of its
keywords that occur in the lower-cased text. -/
def modelScore (lower : Chars) (mid : String) (kws : List Chars) : Nat :=
  kws.foldl (fun acc kw => if jsIncludesC lower kw then acc + keywordPoints mid kw else acc) 0

/-- The matched-keyword list collected for one model. -/
def matchedOf (lower : Chars) (kws : List Chars) : List Chars :=
  kws.filter (fun kw => jsIncludesC lower kw)

/-- The value of the running best in the manager's scoring loop (`bestScore`
starts at `-1`; with the `modelScore > 0` conjunct this is equivalent to a
starting best of `0`). -/
def accBest (acc : Option (String × Nat × List Chars)) : Nat :=
  match acc with
  | none => 0
  | some q => q.2.1

/-- The scoring loop of `detectSwitchIntent`: keep the first model whose score
strictly exceeds the best so far (and is positive). -/
def pickBest (lower : Chars) :
    List (String × List Chars) → Option (String × Nat × List Chars) →
    Option (String × Nat × List Chars)
  | [], acc => acc
  | (mid, kws) :: rest, acc =>
    let s := modelScore lower mid kws
    pickBest lower rest (if accBest acc < s then some (mid, s, matchedOf lower kws) else acc)

/-- `bestScore >= 10 ? 'high' : (bestScore >= 5 ? 'medium' : 'low')`. -/
def confidenceLabel (s : Nat) : String :=
  if 10 ≤ s then "high" else if 5 ≤ s then "medium" else "low"

/-- The keyword table `detectSwitchIntent` scores over. -/
def mgrKeywordTable (models : List ModelDesc) : List (String × List Chars) :=
  addAliasKeywords (mgrBuildModelKeywords models)

/-- The result of `ModelManager.detectSwitchIntent`. -/
structure MgrIntent where
  intent : String
  modelId : String
  scope : String
  confidence : String
  matchedKeywords : List Chars
deriving DecidableEq

/-- `ModelManager.detectSwitchIntent(message)`: trigger check, specificity
scoring with first-wins tie-break, scope loop, permanent override, and a
threshold confidence label. -/
def detectSwitchIntent (models : List ModelDesc) (message : String) : Option MgrIntent :=
  let lower := lcData message
  if mgrSwitchKeywords.any (fun kw => jsIncludesC lower kw) then
    match pickBest lower (mgrKeywordTable models) none with
    | some (mid, s, mkws) =>
      some { intent := "switch_model", modelId := mid,
             scope :=
               if mgrPermanent lower then "user" else detectScopeLoop lower mgrScopeKeywords,
             confidence := confidenceLabel s,
             matchedKeywords := mkws }
    | none => none
  else none

section AssocLemmas

theorem lookupAssoc_mapSet_self {β : Type} (k : String) (v : β) :
    ∀ l : List (String × β), lookupAssoc k (mapSet k v l) = some v := by
  intro l
  induction l with
  | nil => simp [mapSet, lookupAssoc]
  | cons p rest ih =>
    obtain ⟨k2, v2⟩ := p
    by_cases hk : (k2 == k) = true
    · simp [mapSet, hk, lookupAssoc]
    · simp [mapSet, hk, lookupAssoc, ih]

theorem lookupAssoc_append_of_none {β : Type} (k : String) (v : β) :
    ∀ l : List (String × β), lookupAssoc k l = none →
      lookupAssoc k (l ++ [(k, v)]) = some v := by
  intro l
  induction l with
  | nil => intro _; simp [lookupAssoc]
  | cons p rest ih =>
    intro h
    obtain ⟨k2, v2⟩ := p
    by_cases hk : (k2 == k) = true
    · simp [lookupAssoc, hk] at h
    · simp only [lookupAssoc, hk, Bool.false_eq_true, if_false] at h ⊢
      simpa [lookupAssoc, hk] using ih h

theorem lookupAssoc_updateAssoc {β : Type} (k : String) (f : β → β) :
    ∀ l : List (String × β), lookupAssoc k (updateAssoc k f l) = (lookupAssoc k l).map f := by
  intro l
  induction l with
  | nil => simp [lookupAssoc, updateAssoc]
  | cons p rest ih =>
    obtain ⟨k2, v2⟩ := p
    by_cases hk : (k2 == k) = true
    · have h1 : updateAssoc k f ((k2, v2) :: rest) = (k2, f v2) :: updateAssoc k f rest := by
        show (if (k2 == k) = true then (k2, f v2) else (k2, v2)) :: _ = _
        rw [if_pos hk]
      rw [h1]
      show (if (k2 == k) = true then some (f v2) else lookupAssoc k (updateAssoc k f rest)) =
        Option.map f (lookupAssoc k ((k2, v2) :: rest))
      rw [if_pos hk]
      show _ = Option.map f (if (k2 == k) = true then some v2 else lookupAssoc k rest)
      rw [if_pos hk]
      rfl
    · have h1 : updateAssoc k f ((k2, v2) :: rest) = (k2, v2) :: updateAssoc k f rest := by
        show (if (k2 == k) = true then (k2, f v2) else (k2, v2)) :: _ = _
        rw [if_neg hk]
      rw [h1]
      show (if (k2 == k) = true then some v2 else lookupAssoc k (updateAssoc k f rest)) =
        Option.map f (lookupAssoc k ((k2, v2) :: rest))
      rw [if_neg hk]
      show _ = Option.map f (if (k2 == k) = true then some v2 else lookupAssoc k rest)
      rw [if_neg hk]
      exact ih

end AssocLemmas

section SwitchModelLemmas

theorem recordModelUsage_currentModel (st : MMState) (m : String) (u r : Option String)
    (now : Nat) (tf : Bool) : (recordModelUsage st m u r now tf).currentModel = st.currentModel := by
  unfold recordModelUsage
  split
  · rfl
  · split <;> rfl

theorem recordModelUsage_userPreferences (st : MMState) (m : String) (u r : Option String)
    (now : Nat) (tf : Bool) :
    (recordModelUsage st m u r now tf).userPreferences = st.userPreferences := by
  unfold recordModelUsage
  split
  · rfl
  · split <;> rfl

theorem recordModelUsage_roomPreferences (st : MMState) (m : String) (u r : Option String)
    (now : Nat) (tf : Bool) :
    (recordModelUsage st m u r now tf).roomPreferences = st.roomPreferences := by
  unfold recordModelUsage
  split
  · rfl
  · split <;> rfl

theorem recordModelUsage_dbUserPrefs (st : MMState) (m : String) (u r : Option String)
    (now : Nat) (tf : Bool) : (recordModelUsage st m u r now tf).dbUserPrefs = st.dbUserPrefs := by
  unfold recordModelUsage
  split
  · rfl
  · split <;> rfl

theorem recordModelUsage_dbRoomPrefs (st : MMState) (m : String) (u r : Option String)
    (now : Nat) (tf : Bool) : (recordModelUsage st m u r now tf).dbRoomPrefs = st.dbRoomPrefs := by
  unfold recordModelUsage
  split
  · rfl
  · split <;> rfl

theorem applySessionScope_snd (st : MMState) (m scope : String) :
    (applySessionScope st m scope).2 =
      { success := true,
        previous := if sessionScopeHit scope then some st.currentModel else none,
        current := m } := by
  unfold applySessionScope
  split <;> simp_all

theorem applySessionScope_fst_currentModel (st : MMState) (m scope : String) :
    (applySessionScope st m scope).1.currentModel =
      if sessionScopeHit scope then m else st.currentModel := by
  unfold applySessionScope
  split <;> simp_all

theorem applySessionScope_fst_userPreferences (st : MMState) (m scope : String) :
    (applySessionScope st m scope).1.userPreferences = st.userPreferences := by
  unfold applySessionScope
  split <;> rfl

theorem applySessionScope_fst_roomPreferences (st : MMState) (m scope : String) :
    (applySessionScope st m scope).1.roomPreferences = st.roomPreferences := by
  unfold applySessionScope
  split <;> rfl

theorem applyUserScope_currentModel (st : MMState) (m : String) (u : Option String)
    (scope : String) (now : Nat) :
    (applyUserScope st m u scope now).currentModel = st.currentModel := by
  unfold applyUserScope
  cases u with
  | none => rfl
  | some s =>
    dsimp only
    split
    · split <;> rfl
    · rfl

theorem applyUserScope_roomPreferences (st : MMState) (m : String) (u : Option String)
    (scope : String) (now : Nat) :
    (applyUserScope st m u scope now).roomPreferences = st.roomPreferences := by
  unfold applyUserScope
  cases u with
  | none => rfl
  | some s =>
    dsimp only
    split
    · split <;> rfl
    · rfl

theorem applyUserScope_userPreferences_hit (st : MMState) (m : String) (s : String)
    (scope : String) (now : Nat) (h1 : jsIncludesS scope "user" = true)
    (h2 : (s == "") = false) :
    (applyUserScope st m (some s) scope now).userPreferences =
      mapSet s m st.userPreferences := by
  show (if (jsIncludesS scope "user" && !(s == "")) = true then _ else st).userPreferences = _
  rw [h1, h2]
  simp only [Bool.not_false, Bool.true_and, if_true]
  split <;> rfl

theorem applyRoomScope_currentModel (st : MMState) (m : String) (u r : Option String)
    (scope : String) (now : Nat) :
    (applyRoomScope st m u r scope now).currentModel = st.currentModel := by
  unfold applyRoomScope
  cases r with
  | none => rfl
  | some s =>
    dsimp only
    split
    · split <;> rfl
    · rfl

theorem applyRoomScope_userPreferences (st : MMState) (m : String) (u r : Option String)
    (scope : String) (now : Nat) :
    (applyRoomScope st m u r scope now).userPreferences = st.userPreferences := by
  unfold applyRoomScope
  cases r with
  | none => rfl
  | some s =>
    dsimp only
    split
    · split <;> rfl
    · rfl

theorem applyRoomScope_roomPreferences_hit (st : MMState) (m : String) (u : Option String)
    (s : String) (scope : String) (now : Nat) (h1 : jsIncludesS scope "room" = true)
    (h2 : (s == "") = false) :
    (applyRoomScope st m u (some s) scope now).roomPreferences =
      mapSet s m st.roomPreferences := by
  show (if (jsIncludesS scope "room" && !(s == "")) = true then _ else st).roomPreferences = _
  rw [h1, h2]
  simp only [Bool.not_false, Bool.true_and, if_true]
  split <;> rfl

theorem switchModel_ok_inv {st : MMState} {m : String} {u r : Option String} {scope : String}
    {now : Nat} {tf : Bool} {st2 : MMState} {res : SwitchResult}
    (h : switchModel st m u r scope now tf = .ok (st2, res)) :
    validateModelIdFormat m = true ∧ isModelAvailable st m = true ∧
    st2 = recordModelUsage
            (applyRoomScope (applyUserScope (applySessionScope st m scope).1 m u scope now)
              m u r scope now)
            m u r now tf ∧
    res = (applySessionScope st m scope).2 := by
  unfold switchModel at h
  split at h
  · split at h
    · simp only [Except.ok.injEq, Prod.mk.injEq] at h
      exact ⟨by assumption, by assumption, h.1.symm, h.2.symm⟩
    · simp at h
  · simp at h

end SwitchModelLemmas

section ResolveLemmas

theorem getCurrentModel_of_userPref {st : MMState} {u r : Option String} {m : String}
    (h : prefLookup u st.userPreferences = some m) : getCurrentModel st u r = m := by
  unfold getCurrentModel
  rw [h]

theorem getCurrentModel_of_roomPref {st : MMState} {u r : Option String} {m : String}
    (h1 : prefLookup u st.userPreferences = none)
    (h2 : prefLookup r st.roomPreferences = some m) : getCurrentModel st u r = m := by
  unfold getCurrentModel
  rw [h1, h2]

theorem getCurrentModel_of_none {st : MMState} {u r : Option String}
    (h1 : prefLookup u st.userPreferences = none)
    (h2 : prefLookup r st.roomPreferences = none) :
    getCurrentModel st u r = st.currentModel := by
  unfold getCurrentModel
  rw [h1, h2]

theorem prefLookup_some {s : String} (h : (s == "") = false) (prefs : List (String × String)) :
    prefLookup (some s) prefs = lookupAssoc s prefs := by
  show (if (s == "") = true then none else lookupAssoc s prefs) = lookupAssoc s prefs
  rw [h]
  simp

end ResolveLemmas

/-- The state of a freshly constructed `ModelManager` that fell back to the
default catalog, before any preference is set (database detached). -/
def freshState : MMState :=
  { currentModel := "cc-oaicomp/Kimi-K2.5", userPreferences := [], roomPreferences := [],
    availableModels := defaultModels, dbConnected := false, dbUserPrefs := [],
    dbRoomPrefs := [], dbUsageStats := [] }

/-- C1: For every (userId, roomId) pair, `getCurrentModel` returns the user
preference's model id when a user preference exists for userId; otherwise the
room preference's model id when a room preference exists for roomId; otherwise
the in-process session default (`currentModel`). -/
theorem getCurrentModel_precedence (st : MMState) (u r : String) (hu : (u == "") = false)
    (hr : (r == "") = false) :
    (∀ m, lookupAssoc u st.userPreferences = some m →
      getCurrentModel st (some u) (some r) = m) ∧
    (lookupAssoc u st.userPreferences = none →
      ∀ m, lookupAssoc r st.roomPreferences = some m →
        getCurrentModel st (some u) (some r) = m) ∧
    (lookupAssoc u st.userPreferences = none → lookupAssoc r st.roomPreferences = none →
      getCurrentModel st (some u) (some r) = st.currentModel) := by
  refine ⟨?_, ?_, ?_⟩
  · intro m hm
    exact getCurrentModel_of_userPref (by rw [prefLookup_some hu]; exact hm)
  · intro hn m hm
    exact getCurrentModel_of_roomPref (by rw [prefLookup_some hu]; exact hn)
      (by rw [prefLookup_some hr]; exact hm)
  · intro hn1 hn2
    exact getCurrentModel_of_none (by rw [prefLookup_some hu]; exact hn1)
      (by rw [prefLookup_some hr]; exact hn2)

/-- A state in which the caller has a user preference B and the caller's room
has a room preference A. -/
def userBroomAState : MMState :=
  { freshState with
    userPreferences := [("@alice:example.org", "providerB/model-b")],
    roomPreferences := [("!room:example.org", "providerA/model-a")] }

/-- Witness for C1: with the room set to A and the user set to B, the resolver
returns B. -/
theorem getCurrentModel_precedence_witness :
    getCurrentModel userBroomAState (some "@alice:example.org") (some "!room:example.org") =
      "providerB/model-b" :=
  (getCurrentModel_precedence userBroomAState "@alice:example.org" "!room:example.org"
      (by decide) (by decide)).1 "providerB/model-b" (by decide)

/-- C3 counterexample: a successful `switchModel` call whose scope is only
`user` returns `previous = null`, not the session default that was current
before the call (`cc-oaicomp/Kimi-K2.5`). -/
theorem switchModel_previous_counterexample :
    (switchModel freshState "cc-oaicomp/DeepSeek-V3.2" (some "@alice:example.org")
        (some "!room:example.org") "user" 0 false).toOption.map
      (fun p => p.2.previous) = some none ∧
    freshState.currentModel = "cc-oaicomp/Kimi-K2.5" ∧
    (none : Option String) ≠ some "cc-oaicomp/Kimi-K2.5" := by
  decide

/-- C3 (amended): every successful `switchModel` call returns
`current = modelId` and `success = true`, and returns `previous` equal to the
session default current before the call exactly when the requested scope
mentions `session` or `all`; for every other scope `previous` is `null`. -/
theorem switchModel_result_previous {st : MMState} {m : String} {u r : Option String}
    {scope : String} {now : Nat} {tf : Bool} {st2 : MMState} {res : SwitchResult}
    (h : switchModel st m u r scope now tf = .ok (st2, res)) :
    res.current = m ∧ res.success = true ∧
    res.previous = (if sessionScopeHit scope then some st.currentModel else none) := by
  obtain ⟨-, -, -, hres⟩ := switchModel_ok_inv h
  rw [hres, applySessionScope_snd]
  exact ⟨rfl, rfl, rfl⟩

/-- The state produced by the C3 witness run (`scope = "user"`, database
detached). -/
def c3WitnessState : MMState :=
  { freshState with userPreferences := [("@alice:example.org", "cc-oaicomp/DeepSeek-V3.2")] }

/-- The result returned by the C3 witness run. -/
def c3WitnessResult : SwitchResult :=
  { success := true, previous := none, current := "cc-oaicomp/DeepSeek-V3.2" }

/-- Witness for the amended C3. -/
theorem switchModel_result_previous_witness :
    c3WitnessResult.current = "cc-oaicomp/DeepSeek-V3.2" ∧ c3WitnessResult.success = true ∧
    c3WitnessResult.previous = (if sessionScopeHit "user" then some freshState.currentModel
      else none) :=
  @switchModel_result_previous freshState "cc-oaicomp/DeepSeek-V3.2"
    (some "@alice:example.org") (some "!room:example.org") "user" 0 false
    c3WitnessState c3WitnessResult (by decide)

/-- C4: `PreferenceStore.saveUserPreference` (the Preference Store's
user-preference upsert) inserts a fresh record carrying the given model id if
none exists; if a record exists it increments the stored usage count by
exactly 1 and overwrites the model id and the timestamps, keeping
`created_at`. -/
theorem saveUserPreference_upsert (tbl : List (String × UserPrefRow)) (u m : String)
    (now : Nat) :
    (lookupAssoc u tbl = none →
      lookupAssoc u (saveUserPreference tbl u m now) =
        some { modelId := m, lastUsed := now, usageCount := 1, createdAt := now,
               updatedAt := now }) ∧
    (∀ row, lookupAssoc u tbl = some row →
      lookupAssoc u (saveUserPreference tbl u m now) =
        some { modelId := m, lastUsed := now, usageCount := row.usageCount + 1,
               createdAt := row.createdAt, updatedAt := now }) := by
  constructor
  · intro h
    unfold saveUserPreference
    rw [h]
    exact lookupAssoc_append_of_none u _ tbl h
  · intro row h
    unfold saveUserPreference
    rw [h, lookupAssoc_updateAssoc, h]
    rfl

/-- Witness for C4: two consecutive upserts with the same id, starting from an
empty table — the first stores usage count 1, the second increments it to 2
and leaves the model id unchanged. -/
theorem saveUserPreference_upsert_witness :
    lookupAssoc "@u:x" (saveUserPreference [] "@u:x" "cc-oaicomp/Kimi-K2.5" 5) =
      some { modelId := "cc-oaicomp/Kimi-K2.5", lastUsed := 5, usageCount := 1,
             createdAt := 5, updatedAt := 5 } ∧
    lookupAssoc "@u:x"
        (saveUserPreference (saveUserPreference [] "@u:x" "cc-oaicomp/Kimi-K2.5" 5)
          "@u:x" "cc-oaicomp/Kimi-K2.5" 9) =
      some { modelId := "cc-oaicomp/Kimi-K2.5", lastUsed := 9, usageCount := 2,
             createdAt := 5, updatedAt := 9 } :=
  ⟨(saveUserPreference_upsert [] "@u:x" "cc-oaicomp/Kimi-K2.5" 5).1 rfl,
   (saveUserPreference_upsert _ "@u:x" "cc-oaicomp/Kimi-K2.5" 9).2
     { modelId := "cc-oaicomp/Kimi-K2.5", lastUsed := 5, usageCount := 1, createdAt := 5,
       updatedAt := 5 } (by decide)⟩

/-- C9: for every `switchModel` call that passes the format and catalog
checks, a failing usage-statistic (telemetry) write neither surfaces as the
operation's error nor rolls back the session/user/room tier changes: the call
still succeeds, with the same result and the same tier state as a call whose
telemetry write succeeds. -/
theorem switchModel_telemetry_best_effort (st : MMState) (m : String) (u r : Option String)
    (scope : String) (now : Nat) (hf : validateModelIdFormat m = true)
    (ha : isModelAvailable st m = true) :
    (switchModel st m u r scope now true).isOk = true ∧
    (switchModel st m u r scope now true).toOption.map
        (fun p => (p.2, p.1.currentModel, p.1.userPreferences, p.1.roomPreferences,
          p.1.dbUserPrefs, p.1.dbRoomPrefs)) =
      (switchModel st m u r scope now false).toOption.map
        (fun p => (p.2, p.1.currentModel, p.1.userPreferences, p.1.roomPreferences,
          p.1.dbUserPrefs, p.1.dbRoomPrefs)) := by
  unfold switchModel
  rw [hf, ha]
  simp only [if_true]
  refine ⟨rfl, ?_⟩
  show Option.map _ (some _) = Option.map _ (some _)
  simp only [Option.map_some', recordModelUsage_currentModel,
    recordModelUsage_userPreferences, recordModelUsage_roomPreferences,
    recordModelUsage_dbUserPrefs, recordModelUsage_dbRoomPrefs]

/-- Witness for C9: a concrete valid switch at user scope with a connected
database, run once with a failing telemetry write and once with a succeeding
one. -/
theorem switchModel_telemetry_best_effort_witness :
    (switchModel { freshState with dbConnected := true } "cc-oaicomp/DeepSeek-V3.2"
        (some "@alice:example.org") (some "!room:example.org") "user" 3 true).isOk = true ∧
    (switchModel { freshState with dbConnected := true } "cc-oaicomp/DeepSeek-V3.2"
        (some "@alice:example.org") (some "!room:example.org") "user" 3 true).toOption.map
        (fun p => (p.2, p.1.currentModel, p.1.userPreferences, p.1.roomPreferences,
          p.1.dbUserPrefs, p.1.dbRoomPrefs)) =
      (switchModel { freshState with dbConnected := true } "cc-oaicomp/DeepSeek-V3.2"
        (some "@alice:example.org") (some "!room:example.org") "user" 3 false).toOption.map
        (fun p => (p.2, p.1.currentModel, p.1.userPreferences, p.1.roomPreferences,
          p.1.dbUserPrefs, p.1.dbRoomPrefs)) :=
  switchModel_telemetry_best_effort { freshState with dbConnected := true }
    "cc-oaicomp/DeepSeek-V3.2" (some "@alice:example.org") (some "!room:example.org")
    "user" 3 (by decide) (by decide)

/-- C2 counterexample: with a pre-existing user preference for the caller,
`switchModel` at scope `session` succeeds with a valid catalog id, yet
resolving with the matching user/room returns the old user preference, not the
switched id — read-your-write fails for this scope set. -/
theorem switchModel_readYourWrite_counterexample :
    (switchModel
        { freshState with
            userPreferences := [("@alice:example.org", "cc-oaicomp/Kimi-K2.5")] }
        "cc-oaicomp/DeepSeek-V3.2" (some "@alice:example.org") (some "!room:example.org")
        "session" 0 false).toOption.map
      (fun p => getCurrentModel p.1 (some "@alice:example.org") (some "!room:example.org")) =
      some "cc-oaicomp/Kimi-K2.5" ∧
    ("cc-oaicomp/Kimi-K2.5" : String) ≠ "cc-oaicomp/DeepSeek-V3.2" := by
  decide

/-- C2 (amended): after a successful `switchModel(m, {userId, roomId, scope})`,
resolving with the matching user/room yields m whenever the written tier is
the one resolution selects: always when the scope includes `user` (with a
truthy userId); when the scope includes `room` (with a truthy roomId) provided
no user preference remains for the caller; and when the scope mentions
`session`/`all` provided neither a user nor a room preference remains. A
pre-existing higher-precedence preference not overwritten by the call shadows
the switched id. -/
theorem switchModel_readYourWrite_amended {st : MMState} {m : String} {u r : Option String}
    {scope : String} {now : Nat} {tf : Bool} {st2 : MMState} {res : SwitchResult}
    (h : switchModel st m u r scope now tf = .ok (st2, res)) :
    ((jsIncludesS scope "user" && jsTruthy u) = true → getCurrentModel st2 u r = m) ∧
    ((jsIncludesS scope "room" && jsTruthy r) = true →
      prefLookup u st2.userPreferences = none → getCurrentModel st2 u r = m) ∧
    (sessionScopeHit scope = true → prefLookup u st2.userPreferences = none →
      prefLookup r st2.roomPreferences = none → getCurrentModel st2 u r = m) := by
  obtain ⟨-, -, hst, -⟩ := switchModel_ok_inv h
  refine ⟨?_, ?_, ?_⟩
  · intro hc
    rw [Bool.and_eq_true] at hc
    obtain ⟨h1, h2⟩ := hc
    cases u with
    | none => simp [jsTruthy] at h2
    | some s =>
      have h2' : (s == "") = false := by
        unfold jsTruthy at h2
        rwa [Bool.not_eq_true'] at h2
      refine getCurrentModel_of_userPref ?_
      rw [prefLookup_some h2', hst, recordModelUsage_userPreferences,
        applyRoomScope_userPreferences, applyUserScope_userPreferences_hit _ _ _ _ _ h1 h2']
      exact lookupAssoc_mapSet_self s m _
  · intro hc hnone
    rw [Bool.and_eq_true] at hc
    obtain ⟨h1, h2⟩ := hc
    cases r with
    | none => simp [jsTruthy] at h2
    | some s =>
      have h2' : (s == "") = false := by
        unfold jsTruthy at h2
        rwa [Bool.not_eq_true'] at h2
      refine getCurrentModel_of_roomPref hnone ?_
      rw [prefLookup_some h2', hst, recordModelUsage_roomPreferences,
        applyRoomScope_roomPreferences_hit _ _ _ _ _ _ h1 h2']
      exact lookupAssoc_mapSet_self s m _
  · intro hs hn1 hn2
    rw [getCurrentModel_of_none hn1 hn2, hst, recordModelUsage_currentModel,
      applyRoomScope_currentModel, applyUserScope_currentModel,
      applySessionScope_fst_currentModel, hs]
    rfl

/-- The state produced by the C2 witness run. -/
def c2WitnessState : MMState :=
  { freshState with userPreferences := [("@bob:example.org", "cc-oaicomp/DeepSeek-V3.2")] }

/-- The result returned by the C2 witness run. -/
def c2WitnessResult : SwitchResult :=
  { success := true, previous := none, current := "cc-oaicomp/DeepSeek-V3.2" }

/-- Witness for the amended C2: a user-scope switch read back through the
resolver returns the switched id. -/
theorem switchModel_readYourWrite_amended_witness :
    getCurrentModel c2WitnessState (some "@bob:example.org") (some "!room:example.org") =
      "cc-oaicomp/DeepSeek-V3.2" :=
  (@switchModel_readYourWrite_amended freshState "cc-oaicomp/DeepSeek-V3.2"
    (some "@bob:example.org") (some "!room:example.org") "user" 0 false
    c2WitnessState c2WitnessResult (by decide)).1 (by decide)

/-- Modelled from the claim wording for C5: both tokens of
`<token>/<token>` drawn from letters, digits, `.`, `_`, `-`. -/
def claimFormatValid (s : String) : Bool :=
  match splitAtSlash s.data with
  | some (a, b) => !a.isEmpty && a.all isNameChar && !b.isEmpty && b.all isNameChar
  | none => false

/-- C5 counterexample: `"a.b/c"` is composed of exactly the characters the
claim allows in both tokens, yet `validateModelIdFormat` rejects it — the
regex forbids `.` in the provider token. -/
theorem validateModelIdFormat_counterexample :
    claimFormatValid "a.b/c" = true ∧ validateModelIdFormat "a.b/c" = false := by
  decide

theorem splitAtSlash_eq : ∀ (cs a b : Chars), splitAtSlash cs = some (a, b) →
    cs = a ++ '/' :: b := by
  intro cs
  induction cs with
  | nil => intro a b h; cases h
  | cons c rest ih =>
    intro a b h
    unfold splitAtSlash at h
    by_cases hc : (c == '/') = true
    · rw [if_pos hc] at h
      obtain ⟨rfl, rfl⟩ := Prod.mk.injEq .. ▸ (Option.some.injEq .. ▸ h)
      have : c = '/' := by exact beq_iff_eq.mp hc
      simp [this]
    · rw [if_neg hc] at h
      cases hsp : splitAtSlash rest with
      | none => rw [hsp] at h; cases h
      | some p =>
        obtain ⟨a2, b2⟩ := p
        rw [hsp] at h
        obtain ⟨rfl, rfl⟩ := Prod.mk.injEq .. ▸ (Option.some.injEq .. ▸ h)
        simp [ih a2 b2 hsp]

theorem splitAtSlash_append (a b : Chars) (ha : ∀ c ∈ a, isProviderChar c = true) :
    splitAtSlash (a ++ '/' :: b) = some (a, b) := by
  induction a with
  | nil => simp [splitAtSlash]
  | cons c a2 ih =>
    have hc : (c == '/') = false := by
      have h1 : isProviderChar c = true := ha c (List.mem_cons_self c a2)
      by_contra hne
      rw [Bool.not_eq_false] at hne
      rw [beq_iff_eq.mp hne] at h1
      cases h1
    have h2 : splitAtSlash (a2 ++ '/' :: b) = some (a2, b) :=
      ih (fun x hx => ha x (List.mem_cons_of_mem c hx))
    show (if (c == '/') = true then some (([] : Chars), a2 ++ '/' :: b)
      else match splitAtSlash (a2 ++ '/' :: b) with
        | some (a, b2) => some (c :: a, b2)
        | none => none) = some (c :: a2, b)
    rw [hc]
    simp only [Bool.false_eq_true, if_false]
    rw [h2]

/-- C5 (amended): `validateModelIdFormat` accepts exactly the ids of shape
`<token1>/<token2>` where `token1` is a nonempty run of letters, digits, `_`,
`-` (no dot) and `token2` a nonempty run of letters, digits, `.`, `_`, `-`;
and `switchModel` rejects every other id with the `InvalidFormat` error before
consulting the catalog or the store — uniformly in the entire manager state.
The claim's sample rejections hold. -/
theorem validateModelIdFormat_amended :
    (∀ s : String, validateModelIdFormat s = true ↔
      ∃ a b : Chars, s.data = a ++ '/' :: b ∧ a ≠ [] ∧ b ≠ [] ∧
        (∀ c ∈ a, isProviderChar c = true) ∧ (∀ c ∈ b, isNameChar c = true)) ∧
    (∀ (st : MMState) (m : String) (u r : Option String) (scope : String) (now : Nat)
      (tf : Bool), validateModelIdFormat m = false →
        switchModel st m u r scope now tf = .error (invalidFormatMsg m)) ∧
    validateModelIdFormat "nomodel" = false ∧
    validateModelIdFormat "a/b/c" = false ∧
    validateModelIdFormat "a b/c" = false := by
  refine ⟨?_, ?_, by decide, by decide, by decide⟩
  · intro s
    constructor
    · intro h
      unfold validateModelIdFormat at h
      cases hsp : splitAtSlash s.data with
      | none => rw [hsp] at h; cases h
      | some p =>
        obtain ⟨a, b⟩ := p
        rw [hsp] at h
        simp only [Bool.and_eq_true, Bool.not_eq_true', List.all_eq_true] at h
        obtain ⟨⟨⟨hae, hap⟩, hbe⟩, hbq⟩ := h
        refine ⟨a, b, splitAtSlash_eq s.data a b hsp, ?_, ?_, hap, hbq⟩
        · intro hnil
          rw [hnil] at hae
          cases hae
        · intro hnil
          rw [hnil] at hbe
          cases hbe
    · rintro ⟨a, b, hdata, hane, hbne, hachars, hbchars⟩
      unfold validateModelIdFormat
      rw [hdata, splitAtSlash_append a b hachars]
      simp only [Bool.and_eq_true, Bool.not_eq_true', List.all_eq_true]
      refine ⟨⟨⟨?_, hachars⟩, ?_⟩, hbchars⟩
      · cases a with
        | nil => exact absurd rfl hane
        | cons x xs => rfl
      · cases b with
        | nil => exact absurd rfl hbne
        | cons x xs => rfl
  · intro st m u r scope now tf hv
    unfold switchModel
    rw [hv]
    simp

/-- Witness for the amended C5: `"cc-oaicomp/Kimi-K2.5"` matches the
characterization, and the malformed `"a.b/c"` is rejected by `switchModel`
with the `InvalidFormat` error even on a fully populated state. -/
theorem validateModelIdFormat_amended_witness :
    validateModelIdFormat "cc-oaicomp/Kimi-K2.5" = true ∧
    switchModel userBroomAState "a.b/c" (some "@alice:example.org")
        (some "!room:example.org") "session" 0 false = .error (invalidFormatMsg "a.b/c") :=
  ⟨(validateModelIdFormat_amended.1 "cc-oaicomp/Kimi-K2.5").mpr
    ⟨"cc-oaicomp".data, "Kimi-K2.5".data, by decide, by decide, by decide, by decide,
      by decide⟩,
   validateModelIdFormat_amended.2.1 userBroomAState "a.b/c" (some "@alice:example.org")
     (some "!room:example.org") "session" 0 false (by decide)⟩

/-- C6: on the default catalog, the natural-language path's intent detection
of "切换到 deepseek 永久保存" yields the DeepSeek model id, scope `user`
(the permanent keyword overrides), and confidence `high`. -/
theorem nl_detect_deepseek_permanent :
    detectModelSwitchIntent defaultModels "切换到 deepseek 永久保存" =
      some { intent := "switch_model", modelId := "cc-oaicomp/DeepSeek-V3.2",
             scope := "user", confidence := "high" } := by
  decide

/-- C7: in both detectors, whenever detection returns a result and the
lower-cased text contains a permanent/save/preference keyword, the returned
scope is `user` — the override is applied after scope detection and is
unconditional, regardless of any other scope keyword in the text. -/
theorem permanent_keyword_forces_user_scope (models : List ModelDesc) (msg : String) :
    (∀ res, detectModelSwitchIntent models msg = some res →
      nlPermanent (lcData msg) = true → res.scope = "user") ∧
    (∀ res, detectSwitchIntent models msg = some res →
      mgrPermanent (lcData msg) = true → res.scope = "user") := by
  constructor
  · intro res h hp
    simp only [detectModelSwitchIntent] at h
    by_cases hsw : (nlSwitchKeywords.any fun kw => jsIncludesC (lcData msg) kw) = true
    · rw [if_pos hsw] at h
      cases hm : nlFindMatch (lcData msg) (addAliasKeywords (nlBuildModelKeywords models)) with
      | none => rw [hm] at h; cases h
      | some p =>
        obtain ⟨mid, kws⟩ := p
        rw [hm, Option.some.injEq] at h
        rw [← h]
        simp [hp]
    · rw [if_neg hsw] at h
      cases h
  · intro res h hp
    simp only [detectSwitchIntent] at h
    by_cases hsw : (mgrSwitchKeywords.any fun kw => jsIncludesC (lcData msg) kw) = true
    · rw [if_pos hsw] at h
      cases hm : pickBest (lcData msg) (mgrKeywordTable models) none with
      | none => rw [hm] at h; cases h
      | some p =>
        obtain ⟨mid, s, mkws⟩ := p
        rw [hm, Option.some.injEq] at h
        rw [← h]
        simp [hp]
    · rw [if_neg hsw] at h
      cases h

/-- Witness for C7: "用 deepseek 保存" matches the DeepSeek model in both
detectors and, because of the 保存 keyword, both return scope `user`. -/
theorem permanent_keyword_forces_user_scope_witness :
    (detectModelSwitchIntent defaultModels "用 deepseek 保存").map NLIntent.scope =
      some "user" ∧
    (detectSwitchIntent defaultModels "用 deepseek 保存").map MgrIntent.scope =
      some "user" := by
  constructor
  · cases hd : detectModelSwitchIntent defaultModels "用 deepseek 保存" with
    | none => exact absurd hd (by decide)
    | some res =>
      rw [Option.map_some',
        (permanent_keyword_forces_user_scope defaultModels "用 deepseek 保存").1 res hd
          (by decide)]
  · cases hd : detectSwitchIntent defaultModels "用 deepseek 保存" with
    | none => exact absurd hd (by decide)
    | some res =>
      rw [Option.map_some',
        (permanent_keyword_forces_user_scope defaultModels "用 deepseek 保存").2 res hd
          (by decide)]

theorem nlFindMatch_some_any (lower : Chars) :
    ∀ (l : List (String × List Chars)) (mid : String) (kws : List Chars),
      nlFindMatch lower l = some (mid, kws) →
      kws.any (fun kw => jsIncludesC lower kw) = true := by
  intro l
  induction l with
  | nil => intro mid kws h; cases h
  | cons p rest ih =>
    intro mid kws h
    obtain ⟨mid2, kws2⟩ := p
    unfold nlFindMatch at h
    split at h
    · rw [Option.some.injEq, Prod.mk.injEq] at h
      obtain ⟨h1, h2⟩ := h
      rw [← h2]
      assumption
    · exact ih mid kws h

/-- C10: whenever the natural-language path's detector
`detectModelSwitchIntent` (the one the message handler calls) returns a
result, its confidence is `high`: the condition guarding the `medium` branch
re-tests the matched model's keyword list against the text and is therefore
always true for a matched model. -/
theorem nl_detector_confidence_always_high (models : List ModelDesc) (msg : String)
    (res : NLIntent) (h : detectModelSwitchIntent models msg = some res) :
    res.confidence = "high" := by
  simp only [detectModelSwitchIntent] at h
  by_cases hsw : (nlSwitchKeywords.any fun kw => jsIncludesC (lcData msg) kw) = true
  · rw [if_pos hsw] at h
    cases hm : nlFindMatch (lcData msg) (addAliasKeywords (nlBuildModelKeywords models)) with
    | none => rw [hm] at h; cases h
    | some p =>
      obtain ⟨mid, kws⟩ := p
      rw [hm, Option.some.injEq] at h
      rw [← h]
      simp only []
      rw [nlFindMatch_some_any (lcData msg) _ mid kws hm]
      rfl
  · rw [if_neg hsw] at h
    cases h

/-- Witness for C10: a concrete matched message whose reported confidence is
`high`. -/
theorem nl_detector_confidence_always_high_witness :
    (detectModelSwitchIntent defaultModels "用 kimi").map NLIntent.confidence =
      some "high" := by
  cases hd : detectModelSwitchIntent defaultModels "用 kimi" with
  | none => exact absurd hd (by decide)
  | some res =>
    rw [Option.map_some', nl_detector_confidence_always_high defaultModels "用 kimi" res hd]

theorem pickBest_cons (lower : Chars) (mid : String) (kws : List Chars)
    (rest : List (String × List Chars)) (acc : Option (String × Nat × List Chars)) :
    pickBest lower ((mid, kws) :: rest) acc =
      pickBest lower rest
        (if accBest acc < modelScore lower mid kws
          then some (mid, modelScore lower mid kws, matchedOf lower kws) else acc) := rfl

theorem pickBest_none_all_zero (lower : Chars) :
    ∀ (l : List (String × List Chars)) (acc : Option (String × Nat × List Chars)),
      pickBest lower l acc = none →
      acc = none ∧ ∀ p ∈ l, modelScore lower p.1 p.2 = 0 := by
  intro l
  induction l with
  | nil => intro acc h; exact ⟨h, fun p hp => absurd hp (List.not_mem_nil p)⟩
  | cons q rest ih =>
    intro acc h
    obtain ⟨mid, kws⟩ := q
    rw [pickBest_cons] at h
    obtain ⟨hacc, hrest⟩ := ih _ h
    by_cases hlt : accBest acc < modelScore lower mid kws
    · rw [if_pos hlt] at hacc
      cases hacc
    · rw [if_neg hlt] at hacc
      have hs : modelScore lower mid kws = 0 := by
        rw [hacc] at hlt
        have h0 : accBest none = 0 := rfl
        rw [h0] at hlt
        omega
      refine ⟨hacc, ?_⟩
      intro p hp
      rcases List.mem_cons.mp hp with rfl | hp2
      · exact hs
      · exact hrest p hp2

theorem pickBest_of_all_zero (lower : Chars) :
    ∀ (l : List (String × List Chars)) (acc : Option (String × Nat × List Chars)),
      (∀ p ∈ l, modelScore lower p.1 p.2 = 0) → pickBest lower l acc = acc := by
  intro l
  induction l with
  | nil => intro acc _; rfl
  | cons q rest ih =>
    intro acc hz
    obtain ⟨mid, kws⟩ := q
    rw [pickBest_cons]
    have hs : modelScore lower mid kws = 0 := hz (mid, kws) (List.mem_cons_self _ _)
    have hnlt : ¬ accBest acc < modelScore lower mid kws := by
      rw [hs]
      omega
    rw [if_neg hnlt]
    exact ih acc (fun p hp => hz p (List.mem_cons_of_mem _ hp))

theorem pickBest_some_spec (lower : Chars) :
    ∀ (l : List (String × List Chars)) (acc : Option (String × Nat × List Chars))
      (mid : String) (s : Nat) (k : List Chars),
      pickBest lower l acc = some (mid, s, k) →
      (∀ p ∈ l, modelScore lower p.1 p.2 ≤ s) ∧
      (acc = some (mid, s, k) ∨
        ∃ i p, l.get? i = some p ∧ p.1 = mid ∧ modelScore lower p.1 p.2 = s ∧
          k = matchedOf lower p.2 ∧ accBest acc < s ∧
          (∀ j q, j < i → l.get? j = some q → modelScore lower q.1 q.2 < s)) := by
  intro l
  induction l with
  | nil =>
    intro acc mid s k h
    exact ⟨fun p hp => absurd hp (List.not_mem_nil p), Or.inl h⟩
  | cons q0 rest ih =>
    intro acc mid s k h
    obtain ⟨mid0, kws0⟩ := q0
    rw [pickBest_cons] at h
    by_cases hlt : accBest acc < modelScore lower mid0 kws0
    · rw [if_pos hlt] at h
      obtain ⟨hle, hdisj⟩ := ih _ mid s k h
      rcases hdisj with heq | ⟨i, p, hget, hpmid, hpscore, hk, haccb, hbefore⟩
      · injection heq with heq2
        rw [Prod.mk.injEq, Prod.mk.injEq] at heq2
        obtain ⟨h1, h2, h3⟩ := heq2
        refine ⟨?_, Or.inr ⟨0, (mid0, kws0), rfl, h1, h2, h3.symm, ?_, ?_⟩⟩
        · intro p hp
          rcases List.mem_cons.mp hp with rfl | hp2
          · exact le_of_eq h2
          · exact hle p hp2
        · rw [← h2]
          exact hlt
        · intro j q hj _
          exact absurd hj (Nat.not_lt_zero j)
      · have hs0lt : modelScore lower mid0 kws0 < s := haccb
        refine ⟨?_, Or.inr ⟨i + 1, p, hget, hpmid, hpscore, hk, lt_trans hlt hs0lt, ?_⟩⟩
        · intro q hq
          rcases List.mem_cons.mp hq with rfl | hq2
          · exact le_of_lt hs0lt
          · exact hle q hq2
        · intro j q hj hget2
          cases j with
          | zero =>
            injection hget2 with hq
            rw [← hq]
            exact hs0lt
          | succ j2 => exact hbefore j2 q (Nat.lt_of_succ_lt_succ hj) hget2
    · rw [if_neg hlt] at h
      obtain ⟨hle, hdisj⟩ := ih _ mid s k h
      have hs0le : modelScore lower mid0 kws0 ≤ accBest acc := Nat.le_of_not_lt hlt
      rcases hdisj with heq | ⟨i, p, hget, hpmid, hpscore, hk, haccb, hbefore⟩
      · refine ⟨?_, Or.inl heq⟩
        intro q hq
        rcases List.mem_cons.mp hq with rfl | hq2
        · rw [heq] at hs0le
          exact hs0le
        · exact hle q hq2
      · refine ⟨?_, Or.inr ⟨i + 1, p, hget, hpmid, hpscore, hk, haccb, ?_⟩⟩
        · intro q hq
          rcases List.mem_cons.mp hq with rfl | hq2
          · exact le_trans hs0le (le_of_lt haccb)
          · exact hle q hq2
        · intro j q hj hget2
          cases j with
          | zero =>
            injection hget2 with hq
            rw [← hq]
            exact lt_of_le_of_lt hs0le haccb
          | succ j2 => exact hbefore j2 q (Nat.lt_of_succ_lt_succ hj) hget2

theorem foldl_aliasStep_fst :
    ∀ (al : List (String × String)) (mk : List (String × List Chars)) (i : Nat),
      ((al.foldl
          (fun acc p =>
            acc.map (fun q => if q.1 == p.2 then (q.1, q.2 ++ [lcData p.1]) else q))
          mk).get? i).map Prod.fst = (mk.get? i).map Prod.fst := by
  intro al
  induction al with
  | nil => intro mk i; rfl
  | cons a rest ih =>
    intro mk i
    rw [List.foldl_cons, ih, List.get?_map]
    cases hq : mk.get? i with
    | none => rfl
    | some q =>
      obtain ⟨q1, q2⟩ := q
      simp only [Option.map_some']
      split <;> rfl

theorem mgrKeywordTable_fst (models : List ModelDesc) (i : Nat) :
    ((mgrKeywordTable models).get? i).map Prod.fst = (models.get? i).map ModelDesc.id := by
  unfold mgrKeywordTable addAliasKeywords
  rw [foldl_aliasStep_fst]
  unfold mgrBuildModelKeywords
  rw [List.get?_map]
  cases models.get? i <;> rfl

/-- The scoring contract of `detectSwitchIntent` for a returned result: the
winning model is a catalog entry whose score is positive and maximal, every
earlier catalog entry scores strictly less (first-wins tie-break), the
confidence label is the threshold of that best score, and the matched-keyword
list is the winner's filtered keyword list. -/
def scoringSpec (models : List ModelDesc) (msg : String) (res : MgrIntent) : Prop :=
  ∃ i mid kws,
    (mgrKeywordTable models).get? i = some (mid, kws) ∧
    res.modelId = mid ∧
    (models.get? i).map ModelDesc.id = some mid ∧
    0 < modelScore (lcData msg) mid kws ∧
    (∀ j mid2 kws2, (mgrKeywordTable models).get? j = some (mid2, kws2) →
      modelScore (lcData msg) mid2 kws2 ≤ modelScore (lcData msg) mid kws) ∧
    (∀ j mid2 kws2, j < i → (mgrKeywordTable models).get? j = some (mid2, kws2) →
      modelScore (lcData msg) mid2 kws2 < modelScore (lcData msg) mid kws) ∧
    res.confidence = confidenceLabel (modelScore (lcData msg) mid kws) ∧
    res.matchedKeywords = matchedOf (lcData msg) kws

/-- C8 (amended): whenever `detectSwitchIntent` returns a result it satisfies
the scoring contract (per-keyword sum, strictly-highest total wins, ties to
the first model in catalog iteration order, threshold confidence); and when
every model's score is zero the detector returns null. -/
theorem detectSwitchIntent_scoring_amended :
    (∀ models msg res, detectSwitchIntent models msg = some res →
      scoringSpec models msg res) ∧
    (∀ models msg,
      (∀ i mid kws, (mgrKeywordTable models).get? i = some (mid, kws) →
        modelScore (lcData msg) mid kws = 0) →
      detectSwitchIntent models msg = none) := by
  constructor
  · intro models msg res h
    simp only [detectSwitchIntent] at h
    by_cases hsw : (mgrSwitchKeywords.any fun kw => jsIncludesC (lcData msg) kw) = true
    · rw [if_pos hsw] at h
      cases hm : pickBest (lcData msg) (mgrKeywordTable models) none with
      | none => rw [hm] at h; cases h
      | some p =>
        obtain ⟨mid, s, mkws⟩ := p
        rw [hm, Option.some.injEq] at h
        obtain ⟨hle, hdisj⟩ :=
          pickBest_some_spec (lcData msg) (mgrKeywordTable models) none mid s mkws hm
        rcases hdisj with heq | ⟨i, p, hget, hpmid, hpscore, hk, haccb, hbefore⟩
        · cases heq
        · refine ⟨i, p.1, p.2, hget, ?_, ?_, ?_, ?_, ?_, ?_, ?_⟩
          · rw [← h]
            exact hpmid.symm
          · have := mgrKeywordTable_fst models i
            rw [hget] at this
            exact this.symm
          · rw [hpscore]
            exact haccb
          · intro j mid2 kws2 hget2
            rw [hpscore]
            exact hle (mid2, kws2) (List.get?_mem hget2)
          · intro j mid2 kws2 hj hget2
            rw [hpscore]
            exact hbefore j (mid2, kws2) hj hget2
          · rw [← h, hpscore]
          · rw [← h, hk]
    · rw [if_neg hsw] at h
      cases h
  · intro models msg hz
    simp only [detectSwitchIntent]
    by_cases hsw : (mgrSwitchKeywords.any fun kw => jsIncludesC (lcData msg) kw) = true
    · rw [if_pos hsw]
      have hall : ∀ p ∈ mgrKeywordTable models, modelScore (lcData msg) p.1 p.2 = 0 := by
        intro p hp
        obtain ⟨n, hn⟩ := List.get?_of_mem hp
        exact hz n p.1 p.2 hn
      rw [pickBest_of_all_zero (lcData msg) _ none hall]
    · rw [if_neg hsw]

/-- Modelled from the spec (§4.5 step 2/3) for the C8 counterexample: the
spec counts every brand synonym it lists — including `chatgpt` and
`anthropic` — in the 4-point brand tier, whereas the code's fixed brand array
omits them. -/
def specBrandList : List Chars :=
  (["deepseek", "kimi", "gpt", "openai", "chatgpt", "claude", "anthropic", "gemini",
    "深度求索", "月之暗面", "谷歌"] : List String).map String.data

/-- Modelled from the spec: per-keyword points with the spec's brand tier. -/
def specKeywordPoints (mid : String) (kw : Chars) : Nat :=
  if isVersionToken kw then 10
  else if jsIncludesC kw "/".data then 8
  else if isModelNameOf mid kw then 6
  else if specBrandList.contains kw then 4
  else 2

/-- Modelled from the spec: a model's score as the claim describes it. -/
def specModelScore (lower : Chars) (mid : String) (kws : List Chars) : Nat :=
  kws.foldl (fun acc kw => if jsIncludesC lower kw then acc + specKeywordPoints mid kw
    else acc) 0

/-- Modelled from the spec: the claim's score of a given catalog model for a
given message. -/
def specModelScoreOf (models : List ModelDesc) (msg : String) (mid : String) : Nat :=
  match lookupAssoc mid (mgrKeywordTable models) with
  | some kws => specModelScore (lcData msg) mid kws
  | none => 0

/-- C8 counterexample: on "switch chatgpt code" the claim's scoring gives the
winning GPT model 4 (gpt) + 4 (chatgpt, a brand synonym) + 2 (alias code)
= 10 points, so the claim's thresholds demand confidence `high`; the code
scores `chatgpt` in the residual 2-point tier (it is missing from the fixed
brand array), totals 8, and reports `medium`. -/
theorem detectSwitchIntent_scoring_counterexample :
    (detectSwitchIntent defaultModels "switch chatgpt code").map
        (fun res => (res.modelId, res.confidence)) =
      some ("cc-openai/gpt-5.3-codex", "medium") ∧
    specModelScoreOf defaultModels "switch chatgpt code" "cc-openai/gpt-5.3-codex" = 10 ∧
    confidenceLabel
        (specModelScoreOf defaultModels "switch chatgpt code" "cc-openai/gpt-5.3-codex") =
      "high" ∧
    ("medium" : String) ≠ "high" := by
  decide

/-- A catalog in which two models from different providers share the `gpt`
brand synonym in their display names. -/
def twoGptModels : List ModelDesc :=
  [ { id := "p1/gpt-a", name := "GPT A", provider := "p1", contextWindow := 1000,
      maxTokens := 100, reasoning := false, input := ["text"], output := ["text"] },
    { id := "p2/gpt-b", name := "GPT B", provider := "p2", contextWindow := 1000,
      maxTokens := 100, reasoning := false, input := ["text"], output := ["text"] } ]

/-- The result of `detectSwitchIntent` on `twoGptModels` for "use gpt". -/
def twoGptIntent : MgrIntent :=
  { intent := "switch_model", modelId := "p1/gpt-a", scope := "session",
    confidence := "low", matchedKeywords := ["gpt".data] }

/-- Witness for the amended C8: a message matching only the shared brand
synonym resolves to the first-registered model, with confidence below
`medium`, and the run satisfies the scoring contract. -/
theorem detectSwitchIntent_scoring_amended_witness :
    detectSwitchIntent twoGptModels "use gpt" = some twoGptIntent ∧
    scoringSpec twoGptModels "use gpt" twoGptIntent :=
  ⟨by decide,
   detectSwitchIntent_scoring_amended.1 twoGptModels "use gpt" twoGptIntent (by decide)⟩
